import Mathlib

/-!
Shallow embedding of the `finite_automation` package
(src/finite_automation/__init__.py).

The Python code builds a graph of mutable `Automation` objects whose
transition tables map `Condition` objects (keyed by object identity) to
`Transition` objects.  The embedding represents:

* object identity of a `Condition` by a `Nat` field `id` (Python dicts key
  conditions by identity; two conditions are the same key iff same `id`);
* the Python class (concrete kind) of an `Automation` by a `Nat` tag `kind`
  (`clone` uses `self.__class__`, so a `Transition` records its owner's
  class as `automationKind`);
* a `Transition`'s side-effecting `__call__` by an action label `action : Nat`;
  running a transition appends its label to the list of executed actions
  that a step returns;
* mutation by explicit state passing: an operation that mutates an object
  in Python returns the updated object here, and an operation that raises
  returns `Except.error` with the original object unchanged;
* Python's ordered `dict` by a `List (Condition × Transition)` with
  identity-keyed insert semantics (`dinsert`).
-/

namespace FiniteAutomation

/-- Events are caller-defined enumerable values; opaque to the engine. -/
abbrev Event := Nat

/-- `State` enum: reserved `Start`/`Finish` members plus caller members. -/
inductive State : Type where
  | Start : State
  | Finish : State
  | Custom : Nat → State
deriving DecidableEq, Repr

/-- A `Condition` instance: identity (`id`) plus its `__call__` predicate. -/
structure Condition : Type where
  id : Nat
  eval : Event → Bool

mutual

/-- An `Automation` object: Python class tag, current `state`, and the
ordered transition table `transitions : Dict[Condition, Transition]`. -/
inductive Automation : Type where
  | mk : Nat → State → List (Condition × Transition) → Automation

/-- A `Transition` object: the Python class of its owning automation
(`self.automation.__class__`, used by `clone`), its action label
(standing for its `__call__` side effect), and the optional bound
successor `next` (initially `None`). -/
inductive Transition : Type where
  | mk : Nat → Nat → Option Automation → Transition

end

def Automation.kind : Automation → Nat
  | .mk k _ _ => k

def Automation.state : Automation → State
  | .mk _ s _ => s

def Automation.transitions : Automation → List (Condition × Transition)
  | .mk _ _ t => t

def Transition.automationKind : Transition → Nat
  | .mk k _ _ => k

def Transition.action : Transition → Nat
  | .mk _ a _ => a

def Transition.next : Transition → Option Automation
  | .mk _ _ n => n

/-- Declaration-time errors (`ValueError` in the source). -/
inductive BuildError : Type where
  | duplicateCondition : BuildError
  | transitionAlreadyBound : BuildError
deriving DecidableEq, Repr

/-- Step-time errors (`RuntimeError` in the source), plus `noneTransition`
for the crash Python would hit if `_get_transition` ever returned `None`
(`self._run_transition(None)` raises `TypeError`; provably unreachable). -/
inductive StepError : Type where
  | noSatisfiedConditions : StepError
  | multipleSatisfiedConditions : StepError
  | noneTransition : StepError
deriving DecidableEq, Repr

/-- `OK`: the condition kind whose `__call__` always returns `True`. -/
def OK (id : Nat) : Condition :=
  ⟨id, fun _ => true⟩

/-- Python `dict.__setitem__` on an identity-keyed table: if the key is
already present, replace its value in place (keeping the original key and
position), otherwise append the pair at the end. -/
def dinsert (l : List (Condition × Transition)) (c : Condition) (t : Transition) :
    List (Condition × Transition) :=
  if l.any (fun p => p.1.id == c.id) then
    l.map (fun p => if p.1.id == c.id then (p.1, t) else p)
  else
    l ++ [(c, t)]

/-- `Automation.clone`: `self.__class__.__call__(state)` — a fresh
automation of the same Python class, in the given state, with an empty
transition table. -/
def Automation.clone (a : Automation) (s : State) : Automation :=
  Automation.mk a.kind s []

/-- `finished` property: `self.state == State.Finish`. -/
def Automation.finished (a : Automation) : Bool :=
  a.state == State.Finish

/-- `Condition.__or__` (Commit): construct `transition = other(self.automation)`
(`other` is the transition class, represented by its action label; the new
transition is bound to the condition's owning automation `a` with
`next = None`), raise `DuplicateCondition` if `self` is already a key of
`a.transitions`, otherwise insert `(self -> transition)` and return the
transition.  Result: the post-call owning automation and the outcome. -/
def commit (a : Automation) (c : Condition) (action : Nat) :
    Automation × Except BuildError Transition :=
  let transition : Transition := Transition.mk a.kind action none
  if a.transitions.any (fun p => p.1.id == c.id) then
    (a, Except.error BuildError.duplicateCondition)
  else
    (Automation.mk a.kind a.state (a.transitions ++ [(c, transition)]),
      Except.ok transition)

/-- `Transition.__gt__` (BindNext): raise `TransitionAlreadyBound` if
`self.next is not None`; otherwise set `self.next = self.automation.clone(other)`
and return it.  `owner` is the transition's owning automation
(`self.automation`).  Result: the post-call transition and the outcome. -/
def bindNext (owner : Automation) (t : Transition) (s : State) :
    Transition × Except BuildError Automation :=
  match t.next with
  | some _ => (t, Except.error BuildError.transitionAlreadyBound)
  | none =>
    let nxt := owner.clone s
    (Transition.mk t.automationKind t.action (some nxt), Except.ok nxt)

/-- Body of the `for condition, transition in self.transitions.items()` loop
in `_get_transition`: accumulate the matched pairs into the
`satisfied_conditions` dict and remember the current loop value of the
`transition` variable. -/
def loopStep (e : Event) (acc : List (Condition × Transition) × Option Transition)
    (p : Condition × Transition) : List (Condition × Transition) × Option Transition :=
  (if p.1.eval e then dinsert acc.1 p.1 p.2 else acc.1, some p.2)

/-- The whole loop of `_get_transition`: starts from
`satisfied_conditions = dict()`, `transition = None`. -/
def collectSatisfied (e : Event) (l : List (Condition × Transition)) :
    List (Condition × Transition) × Option Transition :=
  l.foldl (loopStep e) ([], none)

/-- `Automation._get_transition`: run the loop; raise on zero or multiple
satisfied conditions; otherwise return the loop variable `transition` —
note: the LAST transition iterated over, not the matched one. -/
def Automation.getTransition (a : Automation) (e : Event) :
    Except StepError (Option Transition) :=
  let r := collectSatisfied e a.transitions
  if r.1.length = 0 then Except.error StepError.noSatisfiedConditions
  else if r.1.length > 1 then Except.error StepError.multipleSatisfiedConditions
  else Except.ok r.2

/-- `Automation._run_transition`: call `transition()`; in the trace
semantics this records the transition's action label as executed. -/
def Automation.runTransition (t : Transition) : List Nat :=
  [t.action]

/-- `Automation.next` (Step): select a transition, run it, return its
`next`.  The result pairs the list of executed action labels with the
outcome; an exception from selection propagates with no action executed. -/
def Automation.next (a : Automation) (e : Event) :
    List Nat × Except StepError (Option Automation) :=
  match a.getTransition e with
  | Except.error err => ([], Except.error err)
  | Except.ok none => ([], Except.error StepError.noneTransition)
  | Except.ok (some t) => (Automation.runTransition t, Except.ok t.next)

/-- State-passing form of `Step`, mirroring the source statement by
statement: each sub-call is given the receiving automation and yields the
post-call automation.  `_get_transition` only reads `self.transitions` and
local variables; `_run_transition` is a static method ignoring `self`; so
neither returns a modified receiver. -/
def Automation.nextS (a : Automation) (e : Event) :
    Automation × List Nat × Except StepError (Option Automation) :=
  match a.getTransition e with
  | Except.error err => (a, [], Except.error err)
  | Except.ok none => (a, [], Except.error StepError.noneTransition)
  | Except.ok (some t) => (a, Automation.runTransition t, Except.ok t.next)

/-! ### Helper lemmas about the selection loop -/

/-- The identity keys of a transition table. -/
def keys (l : List (Condition × Transition)) : List Nat :=
  l.map (fun p => p.1.id)

theorem keys_nil : keys [] = [] := rfl

theorem keys_cons (p : Condition × Transition) (l : List (Condition × Transition)) :
    keys (p :: l) = p.1.id :: keys l := rfl

theorem any_id_false_of_ne {sat : List (Condition × Transition)} {c : Condition}
    (h : ∀ q ∈ sat, q.1.id ≠ c.id) :
    sat.any (fun p => p.1.id == c.id) = false := by
  rw [List.any_eq_false]
  intro p hp
  simp [h p hp]

theorem dinsert_of_ne {sat : List (Condition × Transition)} {c : Condition}
    {t : Transition} (h : ∀ q ∈ sat, q.1.id ≠ c.id) :
    dinsert sat c t = sat ++ [(c, t)] := by
  unfold dinsert
  rw [any_id_false_of_ne h]
  simp

theorem foldl_loopStep_fst_of_false (e : Event) (l : List (Condition × Transition)) :
    ∀ (sat : List (Condition × Transition)) (t0 : Option Transition),
      (∀ p ∈ l, p.1.eval e = false) →
      (l.foldl (loopStep e) (sat, t0)).1 = sat := by
  induction l with
  | nil => intro sat t0 _; rfl
  | cons p rest ih =>
    intro sat t0 h
    rw [List.foldl_cons]
    have hp : p.1.eval e = false := h p (List.mem_cons_self p rest)
    have hstep : loopStep e (sat, t0) p = (sat, some p.2) := by
      simp [loopStep, hp]
    rw [hstep]
    exact ih sat (some p.2) (fun q hq => h q (List.mem_cons_of_mem p hq))

theorem foldl_loopStep_fst_of_nodup (e : Event) (l : List (Condition × Transition)) :
    ∀ (sat : List (Condition × Transition)) (t0 : Option Transition),
      (∀ q ∈ sat, q.1.id ∉ keys l) → (keys l).Nodup →
      (l.foldl (loopStep e) (sat, t0)).1 = sat ++ l.filter (fun p => p.1.eval e) := by
  induction l with
  | nil => intro sat t0 _ _; simp
  | cons p rest ih =>
    intro sat t0 hdisj hnd
    rw [keys_cons, List.nodup_cons] at hnd
    rw [List.foldl_cons]
    cases hp : p.1.eval e with
    | false =>
      have hstep : loopStep e (sat, t0) p = (sat, some p.2) := by
        simp [loopStep, hp]
      rw [hstep]
      have hdisj2 : ∀ q ∈ sat, q.1.id ∉ keys rest := by
        intro q hq
        have := hdisj q hq
        rw [keys_cons, List.mem_cons] at this
        exact fun hmem => this (Or.inr hmem)
      rw [ih sat (some p.2) hdisj2 hnd.2]
      simp [List.filter_cons, hp]
    | true =>
      have hne : ∀ q ∈ sat, q.1.id ≠ p.1.id := by
        intro q hq
        have := hdisj q hq
        rw [keys_cons, List.mem_cons] at this
        exact fun hEq => this (Or.inl hEq)
      have hstep : loopStep e (sat, t0) p = (sat ++ [(p.1, p.2)], some p.2) := by
        simp [loopStep, hp, dinsert_of_ne hne]
      rw [hstep]
      have hdisj2 : ∀ q ∈ sat ++ [(p.1, p.2)], q.1.id ∉ keys rest := by
        intro q hq
        rcases List.mem_append.1 hq with hq | hq
        · have := hdisj q hq
          rw [keys_cons, List.mem_cons] at this
          exact fun hmem => this (Or.inr hmem)
        · rw [List.mem_singleton] at hq
          rw [hq]
          exact hnd.1
      rw [ih (sat ++ [(p.1, p.2)]) (some p.2) hdisj2 hnd.2]
      simp [List.filter_cons, hp]

theorem getTransition_eq (a : Automation) (e : Event) :
    a.getTransition e =
      if (collectSatisfied e a.transitions).1.length = 0 then
        Except.error StepError.noSatisfiedConditions
      else if (collectSatisfied e a.transitions).1.length > 1 then
        Except.error StepError.multipleSatisfiedConditions
      else Except.ok (collectSatisfied e a.transitions).2 := rfl

theorem next_eq_of_error {a : Automation} {e : Event} {err : StepError}
    (h : a.getTransition e = Except.error err) :
    a.next e = ([], Except.error err) := by
  unfold Automation.next
  rw [h]

theorem next_eq_of_ok {a : Automation} {e : Event} {t : Transition}
    (h : a.getTransition e = Except.ok (some t)) :
    a.next e = ([t.action], Except.ok t.next) := by
  unfold Automation.next
  rw [h]
  rfl

theorem bindNext_of_unbound {owner : Automation} {t : Transition} {s : State}
    (h : t.next = none) :
    bindNext owner t s =
      (Transition.mk t.automationKind t.action (some (Automation.mk owner.kind s [])),
        Except.ok (Automation.mk owner.kind s [])) := by
  unfold bindNext
  rw [h]
  rfl

/-! ### Claim theorems -/

/-- Concrete data exhibiting the transition-selection slip: the first
table entry's condition always fires (its transition has action label 1
and a bound successor), the second entry's condition never fires (its
transition has action label 2 and no successor). -/
def lastBugT1 : Transition :=
  Transition.mk 0 1 (some (Automation.mk 0 State.Finish []))

def lastBugT2 : Transition :=
  Transition.mk 0 2 none

def lastBugAuto : Automation :=
  Automation.mk 0 State.Start
    [(⟨1, fun _ => true⟩, lastBugT1), (⟨2, fun _ => false⟩, lastBugT2)]

/-- C1: exactly one condition of `lastBugAuto` matches event `0`, and the
matched transition has action label 1 and successor `some finish`; yet
`Step` executes action 2 and returns `none` — the `return transition` at
the end of `_get_transition` returns the loop variable (the LAST iterated
transition), not the single matched one, contradicting both the spec and
the collect-and-validate intent of the code itself. -/
theorem step_returns_last_not_matched :
    (lastBugAuto.transitions.filter (fun p => p.1.eval 0)).map
        (fun p => (p.2.action, p.2.next))
      = [(1, some (Automation.mk 0 State.Finish []))]
    ∧ lastBugAuto.next 0 = ([2], Except.ok none) :=
  ⟨rfl, rfl⟩

/-- C2: when more than one condition in the table (whose identity keys are
distinct, as in any Python dict) evaluates to true for the event, `Step`
fails with `AmbiguousConditions` ("Multiple satisfied conditions") and no
transition action is executed. -/
theorem step_ambiguous_error_no_action (a : Automation) (e : Event)
    (hnd : (keys a.transitions).Nodup)
    (h : 1 < (a.transitions.filter (fun p => p.1.eval e)).length) :
    a.next e = ([], Except.error StepError.multipleSatisfiedConditions) := by
  have hc : (collectSatisfied e a.transitions).1
      = a.transitions.filter (fun p => p.1.eval e) := by
    have hprop := foldl_loopStep_fst_of_nodup e a.transitions [] none
      (fun q hq => absurd hq (List.not_mem_nil q)) hnd
    simpa [collectSatisfied] using hprop
  apply next_eq_of_error
  rw [getTransition_eq, hc]
  have h0 : ¬ ((a.transitions.filter (fun p => p.1.eval e)).length = 0) := by omega
  simp [h0, h]

def ambAuto : Automation :=
  Automation.mk 0 State.Start
    [(OK 1, Transition.mk 0 3 none), (OK 2, Transition.mk 0 4 none)]

theorem step_ambiguous_error_no_action_witness :
    ambAuto.next 0 = ([], Except.error StepError.multipleSatisfiedConditions) :=
  step_ambiguous_error_no_action ambAuto 0 (by decide) (by decide)

/-- C3: when no condition in the table evaluates to true for the event
(in particular when the table is empty), `Step` fails with
`NoSatisfiedCondition` ("No satisfied conditions") and no transition
action is executed. -/
theorem step_no_match_error (a : Automation) (e : Event)
    (h : ∀ p ∈ a.transitions, p.1.eval e = false) :
    a.next e = ([], Except.error StepError.noSatisfiedConditions) := by
  have hc : (collectSatisfied e a.transitions).1 = [] := by
    have hprop := foldl_loopStep_fst_of_false e a.transitions [] none h
    simpa [collectSatisfied] using hprop
  apply next_eq_of_error
  rw [getTransition_eq, hc]
  simp

def emptyAuto : Automation :=
  Automation.mk 0 State.Start []

theorem step_no_match_error_witness :
    emptyAuto.next 0 = ([], Except.error StepError.noSatisfiedConditions) :=
  step_no_match_error emptyAuto 0 (fun p hp => absurd hp (List.not_mem_nil p))

/-- C4: `Commit` (`Condition.__or__`) fails with `DuplicateCondition` when
the condition is already a key of its owning automaton's table; otherwise
it constructs a new Transition bound to the same automaton (same
`automationKind`, successor `None`), appends the pair to the table, and
returns that Transition. -/
theorem commit_spec (a : Automation) (c : Condition) (act : Nat) :
    (a.transitions.any (fun p => p.1.id == c.id) = true →
      commit a c act = (a, Except.error BuildError.duplicateCondition))
    ∧ (a.transitions.any (fun p => p.1.id == c.id) = false →
      commit a c act =
        (Automation.mk a.kind a.state
            (a.transitions ++ [(c, Transition.mk a.kind act none)]),
          Except.ok (Transition.mk a.kind act none))) := by
  constructor
  · intro h
    unfold commit
    rw [h]
    simp
  · intro h
    unfold commit
    rw [h]
    simp

def dupAuto : Automation :=
  Automation.mk 0 State.Start [(OK 1, Transition.mk 0 3 none)]

theorem commit_spec_witness :
    commit dupAuto (OK 1) 7 = (dupAuto, Except.error BuildError.duplicateCondition)
    ∧ commit dupAuto (OK 2) 7 =
        (Automation.mk 0 State.Start
            [(OK 1, Transition.mk 0 3 none), (OK 2, Transition.mk 0 7 none)],
          Except.ok (Transition.mk 0 7 none)) :=
  ⟨(commit_spec dupAuto (OK 1) 7).1 rfl, (commit_spec dupAuto (OK 2) 7).2 rfl⟩

/-- C5: `BindNext` (`Transition.__gt__`) on a transition whose successor
is already bound fails with `TransitionAlreadyBound` and leaves the
originally bound successor unchanged. -/
theorem bindNext_already_bound (owner : Automation) (t : Transition)
    (a0 : Automation) (s : State) (h : t.next = some a0) :
    bindNext owner t s = (t, Except.error BuildError.transitionAlreadyBound)
    ∧ (bindNext owner t s).1.next = some a0 := by
  have hb : bindNext owner t s = (t, Except.error BuildError.transitionAlreadyBound) := by
    unfold bindNext
    rw [h]
  exact ⟨hb, by rw [hb]; exact h⟩

theorem bindNext_already_bound_witness :
    bindNext (Automation.mk 0 State.Start [])
        (Transition.mk 0 5 (some (Automation.mk 0 State.Finish []))) State.Start
      = (Transition.mk 0 5 (some (Automation.mk 0 State.Finish [])),
          Except.error BuildError.transitionAlreadyBound)
    ∧ (bindNext (Automation.mk 0 State.Start [])
        (Transition.mk 0 5 (some (Automation.mk 0 State.Finish []))) State.Start).1.next
      = some (Automation.mk 0 State.Finish []) :=
  bindNext_already_bound (Automation.mk 0 State.Start [])
    (Transition.mk 0 5 (some (Automation.mk 0 State.Finish [])))
    (Automation.mk 0 State.Finish []) State.Start rfl

/-- C6: an automaton whose table holds a single always-true condition whose
transition was bound (via `BindNext`) to `Finish` steps, on any event, to
the bound successor: that successor has state `Finish`, `finished` is
true, its table is empty, and any further step on it fails with
`NoSatisfiedCondition`. -/
theorem step_ok_to_finish (owner a f : Automation) (c : Condition)
    (t0 t : Transition) (e : Event)
    (hc : ∀ ev, c.eval ev = true)
    (h0 : t0.next = none)
    (hb : bindNext owner t0 State.Finish = (t, Except.ok f))
    (htab : a.transitions = [(c, t)]) :
    a.next e = ([t.action], Except.ok (some f))
    ∧ f.state = State.Finish
    ∧ f.finished = true
    ∧ f.transitions = []
    ∧ (∀ e2, f.next e2 = ([], Except.error StepError.noSatisfiedConditions)) := by
  rw [bindNext_of_unbound h0] at hb
  injection hb with h1 h2
  injection h2 with h2
  subst h1
  subst h2
  have hsel : a.getTransition e
      = Except.ok (some (Transition.mk t0.automationKind t0.action
          (some (Automation.mk owner.kind State.Finish [])))) := by
    rw [getTransition_eq, htab]
    simp [collectSatisfied, loopStep, dinsert, hc e]
  refine ⟨next_eq_of_ok hsel, rfl, rfl, rfl, fun e2 => next_eq_of_error rfl⟩

theorem step_ok_to_finish_witness :
    (Automation.mk 0 State.Start
        [(OK 1, Transition.mk 0 9 (some (Automation.mk 0 State.Finish [])))]).next 5
      = ([9], Except.ok (some (Automation.mk 0 State.Finish [])))
    ∧ (Automation.mk 0 State.Finish []).finished = true
    ∧ (Automation.mk 0 State.Finish []).next 7
      = ([], Except.error StepError.noSatisfiedConditions) := by
  have h := step_ok_to_finish (Automation.mk 0 State.Start [])
    (Automation.mk 0 State.Start
      [(OK 1, Transition.mk 0 9 (some (Automation.mk 0 State.Finish [])))])
    (Automation.mk 0 State.Finish []) (OK 1) (Transition.mk 0 9 none)
    (Transition.mk 0 9 (some (Automation.mk 0 State.Finish []))) 5
    (fun _ => rfl) rfl rfl rfl
  exact ⟨h.1, h.2.2.1, h.2.2.2.2 7⟩

/-- C7: `BindNext` on a transition with an unbound successor succeeds,
producing a brand-new automaton of the same concrete kind as the owning
automaton, with the given state and an empty table, assigning it as the
transition's successor and returning it. -/
theorem bindNext_unbound_spec (owner : Automation) (t : Transition) (s : State)
    (h : t.next = none) :
    bindNext owner t s =
      (Transition.mk t.automationKind t.action (some (Automation.mk owner.kind s [])),
        Except.ok (Automation.mk owner.kind s [])) :=
  bindNext_of_unbound h

theorem bindNext_unbound_spec_witness :
    bindNext (Automation.mk 2 State.Start []) (Transition.mk 2 5 none) (State.Custom 3)
      = (Transition.mk 2 5 (some (Automation.mk 2 (State.Custom 3) [])),
          Except.ok (Automation.mk 2 (State.Custom 3) [])) :=
  bindNext_unbound_spec (Automation.mk 2 State.Start []) (Transition.mk 2 5 none)
    (State.Custom 3) rfl

/-- C8: stepping never mutates the stepped automaton: in the
state-passing form of `Step` the post-call automaton keeps the same
`state` and the same `transitions` table whether the call succeeds or
fails, and the effects agree with `Automation.next`. -/
theorem step_preserves_automation (a : Automation) (e : Event) :
    (a.nextS e).1.state = a.state
    ∧ (a.nextS e).1.transitions = a.transitions
    ∧ (a.nextS e).2 = a.next e := by
  unfold Automation.nextS Automation.next
  cases h : a.getTransition e with
  | error err => exact ⟨rfl, rfl, rfl⟩
  | ok t? =>
    cases t? with
    | none => exact ⟨rfl, rfl, rfl⟩
    | some t => exact ⟨rfl, rfl, rfl⟩

/-- C9: when selection yields a transition whose successor was never
bound, `Step` still executes that transition's action and returns `None`
(rather than an automaton) without raising any error. -/
theorem step_unbound_next_returns_none (a : Automation) (e : Event) (t : Transition)
    (hsel : a.getTransition e = Except.ok (some t))
    (hnext : t.next = none) :
    a.next e = ([t.action], Except.ok none) := by
  rw [next_eq_of_ok hsel, hnext]

def unboundAuto : Automation :=
  Automation.mk 0 State.Start [(OK 1, Transition.mk 0 3 none)]

theorem step_unbound_next_returns_none_witness :
    unboundAuto.next 0 = ([3], Except.ok none) :=
  step_unbound_next_returns_none unboundAuto 0 (Transition.mk 0 3 none) rfl rfl

/-- C10: a failing `Commit` (duplicate condition) leaves the owning
automaton — in particular its table — entirely unchanged, even though a
fresh Transition object is constructed before the duplicate check. -/
theorem commit_duplicate_table_unchanged (a : Automation) (c : Condition) (act : Nat)
    (h : a.transitions.any (fun p => p.1.id == c.id) = true) :
    (commit a c act).1 = a
    ∧ (commit a c act).2 = Except.error BuildError.duplicateCondition := by
  unfold commit
  rw [h]
  exact ⟨rfl, rfl⟩

def dupAuto2 : Automation :=
  Automation.mk 1 (State.Custom 4) [(OK 6, Transition.mk 1 3 none)]

theorem commit_duplicate_table_unchanged_witness :
    (commit dupAuto2 (OK 6) 9).1 = dupAuto2
    ∧ (commit dupAuto2 (OK 6) 9).2 = Except.error BuildError.duplicateCondition :=
  commit_duplicate_table_unchanged dupAuto2 (OK 6) 9 rfl

end FiniteAutomation
